import Mathlib

/-!
Shallow embedding of the page-stitching core of `src/create_png_file.py`
(`class QPngCreator`).  The geometry of a run (rescaled heights, write
offsets, overflow flag, abort flag, log lines, final image dimensions) is
modelled exactly as the code computes it; pixel contents are modelled in a
second layer that is parametric in the resampling filter (`cv2.resize` with
`INTER_AREA`), since the claims about pixels concern only determinism and
untouched (frame) regions, never the numeric values the filter produces.
Python float arithmetic `round(h * (tw / w))` is modelled as exact rational
arithmetic with Python's round-half-to-even; integer-valued quantities are
computed by the equivalent natural-number function `roundHalfEvenDiv`.
-/

namespace ConvertToPng

/-- `self.SIZE_MAX = 65535` — the asserted maximum vertical pixel count. -/
def SIZE_MAX : ℕ := 65535

/-- `self.TEMP_HEIGHT = 100000` — provisional canvas height. -/
def TEMP_HEIGHT : ℕ := 100000

/-- `self.pasted_line = 10` — the initial write offset (top margin). -/
def START_LINE : ℕ := 10

/-- Python's `round` on an exact rational: nearest integer, ties to even. -/
def pyRound (q : ℚ) : ℤ :=
  if q - ⌊q⌋ < 1/2 then ⌊q⌋
  else if 1/2 < q - ⌊q⌋ then ⌊q⌋ + 1
  else if ⌊q⌋ % 2 = 0 then ⌊q⌋ else ⌊q⌋ + 1

/-- `round (a / b)` with ties to even, computed on naturals (junk at `b = 0`). -/
def roundHalfEvenDiv (a b : ℕ) : ℕ :=
  if 2 * (a % b) < b then a / b
  else if b < 2 * (a % b) then a / b + 1
  else if (a / b) % 2 = 0 then a / b else a / b + 1

/-- Constructor configuration: `v_width` (portrait) and `h_width` (landscape). -/
structure Config where
  vWidth : ℕ
  hWidth : ℕ
deriving DecidableEq

/-- Raw pixel dimensions of one page image (`page_img.shape`). -/
structure PageDim where
  w : ℕ
  h : ℕ
deriving DecidableEq

/-- `_set_output_width`: portrait width if `h >= w`, else landscape width. -/
def setOutputWidth (cfg : Config) (p : PageDim) : ℕ :=
  if p.h ≥ p.w then cfg.vWidth else cfg.hWidth

/-- `_paste_image` lines 212–213: `new_size = (output_width, round(shape[0] * (output_width / shape[1])))`.
The height component, in exact arithmetic. -/
def rescaledHeight (tw : ℕ) (p : PageDim) : ℕ :=
  roundHalfEvenDiv (p.h * tw) p.w

/-- The log messages `_write_log` can append (lines 294, 302, 304):
size exceeded / resized / normal. -/
inductive LogMsg
  | sizeExceeded
  | resized
  | normal
deriving DecidableEq

/-- One successful paste: the canvas rows `[off, off + h)` written at width `w`. -/
structure Seg where
  off : ℕ
  w : ℕ
  h : ℕ
deriving DecidableEq

/-- Mutable state of the page loop in `execute`. -/
structure LoopState where
  pastedLine : ℕ
  overFlg : Bool
  segs : List Seg
  logs : List LogMsg
  aborted : Bool
deriving DecidableEq

/-- State just before the loop: `pasted_line = 10`, `over_flg = False`. -/
def initState : LoopState :=
  { pastedLine := START_LINE, overFlg := false, segs := [], logs := [], aborted := false }

/-- Lines 281–286: at the start of each iteration, if `pasted_line >= SIZE_MAX`
and the flag is not yet set, warn and set `over_flg = True`. -/
def checkOverflow (s : LoopState) : LoopState :=
  if SIZE_MAX ≤ s.pastedLine ∧ s.overFlg = false then { s with overFlg := true } else s

/-- The `for page_num, png_path in enumerate(...)` loop of `execute`
(lines 280–295), combined with `_paste_image` (lines 205–223):
check the overflow flag, rescale, test against `TEMP_HEIGHT`, and either
paste (advancing `pasted_line`) or log the failure and break. -/
def loop (tw : ℕ) : List PageDim → LoopState → LoopState
  | [], s => s
  | p :: ps, s =>
    if (checkOverflow s).pastedLine + rescaledHeight tw p > TEMP_HEIGHT then
      { checkOverflow s with
          logs := (checkOverflow s).logs ++ [LogMsg.sizeExceeded],
          aborted := true }
    else
      loop tw ps
        { checkOverflow s with
            pastedLine := (checkOverflow s).pastedLine + rescaledHeight tw p,
            segs := (checkOverflow s).segs ++
              [{ off := (checkOverflow s).pastedLine, w := tw, h := rescaledHeight tw p }] }

/-- `resize_image` (lines 239–250): if the trimmed height is `< SIZE_MAX` the
image is returned unchanged; otherwise it is downscaled to height `SIZE_MAX`
with width `round(width * (SIZE_MAX / height))`. -/
def resizeDims (w h : ℕ) : ℕ × ℕ :=
  if h < SIZE_MAX then (w, h)
  else (roundHalfEvenDiv (w * SIZE_MAX) h, SIZE_MAX)

/-- Everything `execute` produces for a non-empty page list, at the geometric
level: trim to `[0, pasted_line)`, optionally resize (only when `over_flg`),
log the outcome, and save the PNG (the save is unconditional in the code). -/
structure RunResult where
  targetWidth : ℕ
  trimmedWidth : ℕ
  trimmedHeight : ℕ
  finalWidth : ℕ
  finalHeight : ℕ
  overFlg : Bool
  aborted : Bool
  segs : List Seg
  logs : List LogMsg
  savedFile : Bool
deriving DecidableEq

/-- `execute` (lines 273–313) on a non-empty page list `first :: rest`. -/
def runGeom (cfg : Config) (first : PageDim) (rest : List PageDim) : RunResult :=
  let tw := setOutputWidth cfg first
  let s := loop tw (first :: rest) initState
  { targetWidth := tw
    trimmedWidth := tw
    trimmedHeight := s.pastedLine
    finalWidth := if s.overFlg then (resizeDims tw s.pastedLine).1 else tw
    finalHeight := if s.overFlg then (resizeDims tw s.pastedLine).2 else s.pastedLine
    overFlg := s.overFlg
    aborted := s.aborted
    segs := s.segs
    logs := s.logs ++ [if s.overFlg then LogMsg.resized else LogMsg.normal]
    savedFile := true }

/-- `execute(png_list=pages, save_name=...)`: an empty list is falsy, so the
code returns `False` before any processing (modelled as `none`). -/
def executeGeom (cfg : Config) : List PageDim → Option RunResult
  | [] => none
  | first :: rest => some (runGeom cfg first rest)

/-- Spec-side description of in-order compositing: scanning the page list
left to right, each page claims the rows `[off, off + rescaledHeight)` right
below its predecessor. -/
def buildSegs (tw : ℕ) : ℕ → List PageDim → List Seg
  | _, [] => []
  | o, p :: ps =>
    { off := o, w := tw, h := rescaledHeight tw p } ::
      buildSegs tw (o + rescaledHeight tw p) ps

/-- The pasted segments tile the canvas contiguously starting at `o`. -/
def chainB : ℕ → List Seg → Bool
  | _, [] => true
  | o, s :: t => decide (s.off = o) && chainB (s.off + s.h) t

/-! ## Pixel-level model

Same control flow as the geometric model, but carrying the canvas contents.
The resampling filter (`cv2.resize` with `INTER_AREA`) is a parameter: all
pixel-level claims hold for every filter function. -/

/-- A BGR pixel sample (the code reads images with `cv2.IMREAD_COLOR`). -/
def Pix : Type := ℕ × ℕ × ℕ

instance : DecidableEq Pix :=
  inferInstanceAs (DecidableEq (ℕ × ℕ × ℕ))

/-- `fill(255)`: the all-white pixel. -/
def white : Pix := (255, 255, 255)

/-- A decoded page image: dimensions plus pixel contents. -/
structure PageImg where
  w : ℕ
  h : ℕ
  pix : ℕ → ℕ → Pix

/-- The raw dimensions of a page image. -/
def PageImg.dim (p : PageImg) : PageDim := { w := p.w, h := p.h }

/-- A resampling filter: source image, target width, target height, target
row, target column ↦ pixel. Stands for `cv2.resize(..., INTER_AREA)`. -/
def Resample : Type := PageImg → ℕ → ℕ → ℕ → ℕ → Pix

/-- Loop state together with the canvas contents (`self.base_img`). -/
structure PixState where
  geo : LoopState
  canvas : ℕ → ℕ → Pix

/-- `_create_board`: all-white canvas, plus the initial loop state. -/
def pixInit : PixState :=
  { geo := initState, canvas := fun _ _ => white }

/-- One successful paste at the pixel level: the geometry advances as in the
geometric loop, and exactly the canvas rows
`[pasted_line, pasted_line + newHeight)` are overwritten, full width, with
the rescaled page (`base_img[pasted_line : pasted_line+h, :, :] = page_img`). -/
def pixStepState (f : Resample) (tw : ℕ) (p : PageImg) (s : PixState) : PixState :=
  { geo := { checkOverflow s.geo with
               pastedLine := (checkOverflow s.geo).pastedLine + rescaledHeight tw p.dim,
               segs := (checkOverflow s.geo).segs ++
                 [{ off := (checkOverflow s.geo).pastedLine, w := tw,
                    h := rescaledHeight tw p.dim }] },
    canvas := fun r c =>
      if (checkOverflow s.geo).pastedLine ≤ r ∧
          r < (checkOverflow s.geo).pastedLine + rescaledHeight tw p.dim then
        f p tw (rescaledHeight tw p.dim) (r - (checkOverflow s.geo).pastedLine) c
      else s.canvas r c }

/-- The page loop of `execute` carrying pixel contents. -/
def pixLoop (f : Resample) (tw : ℕ) : List PageImg → PixState → PixState
  | [], s => s
  | p :: ps, s =>
    if (checkOverflow s.geo).pastedLine + rescaledHeight tw p.dim > TEMP_HEIGHT then
      { geo := { checkOverflow s.geo with
                   logs := (checkOverflow s.geo).logs ++ [LogMsg.sizeExceeded],
                   aborted := true },
        canvas := s.canvas }
    else
      pixLoop f tw ps (pixStepState f tw p s)

/-- Pixel-level outcome of `execute` on a non-empty page list: geometry,
the trimmed canvas contents, and the finalized (possibly downscaled) image. -/
structure PixResult where
  targetWidth : ℕ
  trimmedHeight : ℕ
  finalWidth : ℕ
  finalHeight : ℕ
  overFlg : Bool
  aborted : Bool
  segs : List Seg
  logs : List LogMsg
  canvas : ℕ → ℕ → Pix
  finalImage : ℕ → ℕ → Pix

/-- `execute` on `first :: rest`, pixel level.  `resize_image` is invoked
only when `over_flg` is set, and itself rescales only when the trimmed
height is not `< SIZE_MAX`. -/
def runPix (f : Resample) (cfg : Config) (first : PageImg) (rest : List PageImg) :
    PixResult :=
  let tw := setOutputWidth cfg first.dim
  let s := pixLoop f tw (first :: rest) pixInit
  { targetWidth := tw
    trimmedHeight := s.geo.pastedLine
    finalWidth := if s.geo.overFlg then (resizeDims tw s.geo.pastedLine).1 else tw
    finalHeight := if s.geo.overFlg then (resizeDims tw s.geo.pastedLine).2 else s.geo.pastedLine
    overFlg := s.geo.overFlg
    aborted := s.geo.aborted
    segs := s.geo.segs
    logs := s.geo.logs ++ [if s.geo.overFlg then LogMsg.resized else LogMsg.normal]
    canvas := s.canvas
    finalImage :=
      if s.geo.overFlg then
        if s.geo.pastedLine < SIZE_MAX then s.canvas
        else f { w := tw, h := s.geo.pastedLine, pix := s.canvas }
               (resizeDims tw s.geo.pastedLine).1 SIZE_MAX
      else s.canvas }

/-- `execute(png_list=pages, ...)` at the pixel level; empty lists are falsy
and rejected before any processing. -/
def executePix (f : Resample) (cfg : Config) : List PageImg → Option PixResult
  | [] => none
  | first :: rest => some (runPix f cfg first rest)

/-! ## PDF-mode page file names

`_create_png` (lines 148–182) saves page `i` (0-based) as `_{i+1:02d}.png`
and then processes `sorted(self.png_list)` — lexicographic order on the file
names.  Names are modelled as their lists of character code points. -/

/-- Big-endian decimal digits of `n` (structural recursion on a fuel bound). -/
def decDigitsAux : ℕ → ℕ → List ℕ
  | _, 0 => []
  | 0, _ + 1 => []
  | fuel + 1, n + 1 => decDigitsAux fuel ((n + 1) / 10) ++ [(n + 1) % 10]

/-- Big-endian decimal digits of `n` (empty for `n = 0`). -/
def decDigits (n : ℕ) : List ℕ := decDigitsAux n n

/-- Python's `f"{i:02d}"` padding: left-pad the digit list with zeros to
width 2. -/
def pad2 (ds : List ℕ) : List ℕ :=
  if ds.length < 2 then List.replicate (2 - ds.length) 0 ++ ds else ds

/-- The code points of the file name `f"_{i:02d}.png"`:
underscore, padded digits, ".png". -/
def pngName (i : ℕ) : List ℕ :=
  95 :: ((pad2 (decDigits i)).map (fun d => 48 + d) ++ [46, 112, 110, 103])

/-- The file names `_create_png` writes for an `n`-page PDF, in page order. -/
def pdfNames (n : ℕ) : List (List ℕ) :=
  (List.range n).map (fun i => pngName (i + 1))

/-- Lexicographic comparison of code-point lists, as Python compares `str`. -/
def lexLe : List ℕ → List ℕ → Bool
  | [], _ => true
  | _ :: _, [] => false
  | a :: as, b :: bs => if a < b then true else if b < a then false else lexLe as bs

/-- The order `sorted` sorts by, as a relation. -/
def nameLe (a b : List ℕ) : Prop := lexLe a b = true

instance : DecidableRel nameLe := fun a b =>
  inferInstanceAs (Decidable (lexLe a b = true))

/-- `sorted(self.png_list)` (line 181): the names, sorted lexicographically. -/
def sortedNames (n : ℕ) : List (List ℕ) :=
  List.insertionSort nameLe (pdfNames n)

/-- A concrete resampling filter, used to instantiate parametric theorems. -/
def constFilter : Resample := fun _ _ _ _ _ => (0, 0, 0)

/-- A concrete 100×50 page image, used to instantiate parametric theorems. -/
def samplePage : PageImg := { w := 100, h := 50, pix := fun _ _ => (7, 7, 7) }

/-! ## Basic lemmas about the loop state -/

theorem checkOverflow_pastedLine (s : LoopState) :
    (checkOverflow s).pastedLine = s.pastedLine := by
  unfold checkOverflow; split <;> rfl

theorem checkOverflow_segs (s : LoopState) : (checkOverflow s).segs = s.segs := by
  unfold checkOverflow; split <;> rfl

theorem checkOverflow_logs (s : LoopState) : (checkOverflow s).logs = s.logs := by
  unfold checkOverflow; split <;> rfl

theorem checkOverflow_aborted (s : LoopState) : (checkOverflow s).aborted = s.aborted := by
  unfold checkOverflow; split <;> rfl

theorem buildSegs_length (tw : ℕ) (l : List PageDim) :
    ∀ o, (buildSegs tw o l).length = l.length := by
  induction l with
  | nil => intro o; rfl
  | cons p ps ih => intro o; simp [buildSegs, ih]

theorem buildSegs_map_h (tw : ℕ) (l : List PageDim) :
    ∀ o, (buildSegs tw o l).map Seg.h = l.map (rescaledHeight tw) := by
  induction l with
  | nil => intro o; rfl
  | cons p ps ih => intro o; simp [buildSegs, ih]

theorem chainB_buildSegs (tw : ℕ) (l : List PageDim) :
    ∀ o, chainB o (buildSegs tw o l) = true := by
  induction l with
  | nil => intro o; rfl
  | cons p ps ih => intro o; simp [buildSegs, chainB, ih]

theorem buildSegs_mem (tw : ℕ) (l : List PageDim) :
    ∀ o seg, seg ∈ buildSegs tw o l →
      seg.w = tw ∧ ∃ p ∈ l, seg.h = rescaledHeight tw p := by
  induction l with
  | nil => intro o seg h; cases h
  | cons p ps ih =>
    intro o seg h
    rcases List.mem_cons.mp h with h1 | h2
    · subst h1; exact ⟨rfl, p, List.mem_cons_self _ _, rfl⟩
    · obtain ⟨hw, q, hq, hh⟩ := ih _ _ h2
      exact ⟨hw, q, List.mem_cons_of_mem _ hq, hh⟩

theorem chainB_off_le (t : List Seg) :
    ∀ o, chainB o t = true → ∀ seg ∈ t, o ≤ seg.off := by
  induction t with
  | nil => intro o _ seg h; cases h
  | cons s ss ih =>
    intro o hc seg hm
    have hc' : s.off = o ∧ chainB (s.off + s.h) ss = true := by
      simpa [chainB, Bool.and_eq_true] using hc
    rcases List.mem_cons.mp hm with h1 | h2
    · subst h1; omega
    · have := ih _ hc'.2 seg h2; omega

/-! ## The main loop lemmas -/

/-- Each run of the loop pastes an in-order prefix of the page list, with
consecutive offsets, and advances `pasted_line` by exactly the pasted
heights. -/
theorem loop_main (tw : ℕ) (ps : List PageDim) :
    ∀ s : LoopState, ∃ k, k ≤ ps.length ∧
      (loop tw ps s).segs = s.segs ++ buildSegs tw s.pastedLine (ps.take k) ∧
      (loop tw ps s).pastedLine =
        s.pastedLine + ((ps.take k).map (rescaledHeight tw)).sum := by
  induction ps with
  | nil => intro s; exact ⟨0, by simp [loop, buildSegs]⟩
  | cons p rest ih =>
    intro s
    simp only [loop]
    split
    · exact ⟨0, by simp, by simp [checkOverflow_segs, buildSegs],
        by simp [checkOverflow_pastedLine]⟩
    · obtain ⟨k, hk, hsegs, hline⟩ := ih
        { checkOverflow s with
            pastedLine := (checkOverflow s).pastedLine + rescaledHeight tw p,
            segs := (checkOverflow s).segs ++
              [{ off := (checkOverflow s).pastedLine, w := tw, h := rescaledHeight tw p }] }
      refine ⟨k + 1, by simpa using hk, ?_, ?_⟩
      · rw [hsegs]
        simp [checkOverflow_segs, checkOverflow_pastedLine, buildSegs, List.take_succ_cons]
      · rw [hline]
        simp [checkOverflow_pastedLine, List.take_succ_cons]
        omega

/-- The write offset never exceeds the provisional canvas height. -/
theorem loop_le_temp (tw : ℕ) (ps : List PageDim) :
    ∀ s : LoopState, s.pastedLine ≤ TEMP_HEIGHT →
      (loop tw ps s).pastedLine ≤ TEMP_HEIGHT := by
  induction ps with
  | nil => intro s h; simpa [loop] using h
  | cons p rest ih =>
    intro s h
    simp only [loop]
    split
    · simpa [checkOverflow_pastedLine] using h
    · next hfit =>
      refine ih _ ?_
      show (checkOverflow s).pastedLine + rescaledHeight tw p ≤ TEMP_HEIGHT
      rw [checkOverflow_pastedLine] at hfit ⊢
      omega

/-- When the whole page list fits, the loop pastes everything: the final
offset is the initial offset plus all rescaled heights, and neither the
abort flag nor the failure log is touched. -/
theorem loop_fit (tw : ℕ) (ps : List PageDim) :
    ∀ s : LoopState, s.pastedLine + (ps.map (rescaledHeight tw)).sum ≤ TEMP_HEIGHT →
      (loop tw ps s).pastedLine = s.pastedLine + (ps.map (rescaledHeight tw)).sum ∧
      (loop tw ps s).aborted = s.aborted ∧ (loop tw ps s).logs = s.logs := by
  induction ps with
  | nil => intro s _; simp [loop]
  | cons p rest ih =>
    intro s h
    simp only [List.map_cons, List.sum_cons] at h ⊢
    simp only [loop]
    split
    · next hgt => rw [checkOverflow_pastedLine] at hgt; omega
    · next hle =>
      obtain ⟨h1, h2, h3⟩ := ih
        { checkOverflow s with
            pastedLine := (checkOverflow s).pastedLine + rescaledHeight tw p,
            segs := (checkOverflow s).segs ++
              [{ off := (checkOverflow s).pastedLine, w := tw, h := rescaledHeight tw p }] }
        (by
          show (checkOverflow s).pastedLine + rescaledHeight tw p +
              (rest.map (rescaledHeight tw)).sum ≤ TEMP_HEIGHT
          rw [checkOverflow_pastedLine]; omega)
      refine ⟨?_, ?_, ?_⟩
      · rw [h1]
        show (checkOverflow s).pastedLine + rescaledHeight tw p +
            (rest.map (rescaledHeight tw)).sum =
          s.pastedLine + (rescaledHeight tw p + (rest.map (rescaledHeight tw)).sum)
        rw [checkOverflow_pastedLine]; omega
      · rw [h2]
        show (checkOverflow s).aborted = s.aborted
        rw [checkOverflow_aborted]
      · rw [h3]
        show (checkOverflow s).logs = s.logs
        rw [checkOverflow_logs]

/-! ## The integer rounding agrees with Python's round on exact rationals -/

theorem roundHalfEvenDiv_eq_pyRound (a b : ℕ) (hb : 0 < b) :
    (roundHalfEvenDiv a b : ℤ) = pyRound ((a : ℚ) / (b : ℚ)) := by
  have hbQ : (0 : ℚ) < (b : ℚ) := by exact_mod_cast hb
  have hfl : ⌊((a : ℚ) / (b : ℚ))⌋ = ((a / b : ℕ) : ℤ) := by
    rw [Rat.floor_natCast_div_natCast]
    exact (Int.ofNat_tdiv a b).symm
  have hsplit : ((b * (a / b) + a % b : ℕ) : ℚ) = (a : ℚ) := by
    exact_mod_cast congrArg (fun n : ℕ => (n : ℚ)) (Nat.div_add_mod a b)
  have hfrac : (a : ℚ) / (b : ℚ) - ((a / b : ℕ) : ℚ) = ((a % b : ℕ) : ℚ) / (b : ℚ) := by
    field_simp
    push_cast at hsplit ⊢
    linarith [hsplit]
  have hx : (a : ℚ) / (b : ℚ) - ((((a / b : ℕ) : ℤ)) : ℚ) = ((a % b : ℕ) : ℚ) / (b : ℚ) := by
    rw [Int.cast_natCast]
    exact hfrac
  have hlt : (((a % b : ℕ) : ℚ) / (b : ℚ) < 1 / 2) ↔ 2 * (a % b) < b := by
    rw [div_lt_div_iff₀ hbQ (by norm_num : (0 : ℚ) < 2), one_mul, mul_comm]
    exact_mod_cast Iff.rfl
  have hgt : ((1 / 2 : ℚ) < ((a % b : ℕ) : ℚ) / (b : ℚ)) ↔ b < 2 * (a % b) := by
    rw [div_lt_div_iff₀ (by norm_num : (0 : ℚ) < 2) hbQ, one_mul, mul_comm]
    exact_mod_cast Iff.rfl
  have hpar : ((((a / b : ℕ) : ℤ)) % 2 = 0) ↔ ((a / b) % 2 = 0) := by omega
  unfold pyRound roundHalfEvenDiv
  rw [hfl, hx]
  simp only [hlt, hgt, hpar]
  split_ifs <;> push_cast <;> ring

/-- The spec formula `round(originalHeight * targetWidth / originalWidth)`
computes exactly the height the code pastes. -/
theorem rescaledHeight_eq_pyRound (tw : ℕ) (p : PageDim) (hw : 0 < p.w) :
    rescaledHeight tw p = (pyRound (((p.h : ℚ) * (tw : ℚ)) / (p.w : ℚ))).toNat := by
  have h := roundHalfEvenDiv_eq_pyRound (p.h * tw) p.w hw
  have hc : ((p.h * tw : ℕ) : ℚ) = (p.h : ℚ) * (tw : ℚ) := by push_cast; ring
  rw [hc] at h
  rw [rescaledHeight]
  omega

/-! ## Pixel-level lemmas -/

/-- The pixel-level loop computes the same geometry as the geometric loop. -/
theorem pixLoop_geo (f : Resample) (tw : ℕ) (ps : List PageImg) :
    ∀ s : PixState, (pixLoop f tw ps s).geo = loop tw (ps.map PageImg.dim) s.geo := by
  induction ps with
  | nil => intro s; rfl
  | cons p rest ih =>
    intro s
    simp only [pixLoop, List.map_cons, loop]
    split
    · rfl
    · exact ih _

/-- Frame property of the loop: a row not covered by any pasted segment
keeps the pixel values it had before. -/
theorem pixLoop_frame (f : Resample) (tw : ℕ) (ps : List PageImg) :
    ∀ (s : PixState) (r c : ℕ),
      (∀ seg ∈ (pixLoop f tw ps s).geo.segs, r < seg.off ∨ seg.off + seg.h ≤ r) →
      (pixLoop f tw ps s).canvas r c = s.canvas r c := by
  induction ps with
  | nil => intro s r c _; rfl
  | cons p rest ih =>
    intro s r c hout
    simp only [pixLoop] at hout ⊢
    by_cases hC : (checkOverflow s.geo).pastedLine + rescaledHeight tw p.dim > TEMP_HEIGHT
    · rw [if_pos hC]
    · rw [if_neg hC] at hout ⊢
      have hmem : ({ off := (checkOverflow s.geo).pastedLine, w := tw, h := rescaledHeight tw p.dim } : Seg) ∈
          (pixLoop f tw rest (pixStepState f tw p s)).geo.segs := by
        rw [pixLoop_geo]
        obtain ⟨k, _, hsegs, _⟩ := loop_main tw (rest.map PageImg.dim) (pixStepState f tw p s).geo
        rw [hsegs]
        apply List.mem_append_left
        show _ ∈ (checkOverflow s.geo).segs ++ [_]
        exact List.mem_append_right _ (List.mem_singleton_self _)
      have hnew : r < (checkOverflow s.geo).pastedLine ∨
          (checkOverflow s.geo).pastedLine + rescaledHeight tw p.dim ≤ r := hout _ hmem
      rw [ih _ r c hout]
      show (if (checkOverflow s.geo).pastedLine ≤ r ∧
          r < (checkOverflow s.geo).pastedLine + rescaledHeight tw p.dim then
            f p tw (rescaledHeight tw p.dim) (r - (checkOverflow s.geo).pastedLine) c
          else s.canvas r c) = s.canvas r c
      rw [if_neg]
      rintro ⟨h1, h2⟩
      rcases hnew with h3 | h3
      · exact absurd h1 (by omega)
      · exact absurd h2 (by omega)

/-! ## The claims -/

/-- Claim C1: the claim states that whenever the cumulative rescaled height
(including the 10px margin) reaches at least 65535 while staying within the
provisional canvas, the finalized output has height exactly 65535, width
`round(width * 65535 / writeOffset)`, and is logged as resized.  The code
violates this: the overflow test runs only at the start of a loop iteration,
so an overflow first caused by the last page is never detected.  Witnessed
here: a single 100×12000 page rescales to 640×76800, the write offset ends
at 76810 (`≥ 65535`, within the 100000-row canvas), yet the finalized image
keeps height 76810 and width 640 and the run is logged as normal. -/
theorem claim_C1_code_eval :
    (runGeom { vWidth := 640, hWidth := 1000 } { w := 100, h := 12000 } []).trimmedHeight = 76810 ∧
    SIZE_MAX ≤ 76810 ∧ 76810 ≤ TEMP_HEIGHT ∧
    (runGeom { vWidth := 640, hWidth := 1000 } { w := 100, h := 12000 } []).finalHeight = 76810 ∧
    (runGeom { vWidth := 640, hWidth := 1000 } { w := 100, h := 12000 } []).finalWidth = 640 ∧
    (runGeom { vWidth := 640, hWidth := 1000 } { w := 100, h := 12000 } []).logs =
      [LogMsg.normal] := by
  decide

/-- Claim C2: the claim states that when a page's rescaled height added to
`pasted_line` exceeds the 100000-row provisional canvas, composition stops
at that page, the document is logged as size-exceeded, and no output image
file is produced.  The first two parts hold, but the last is violated: after
the `break` the code falls through to trimming and `_save_png()`, so a
truncated PNG is saved, and a second (contradictory) outcome line is logged.
Witnessed here: two 100×8000 pages rescale to 51200 rows each; the second
paste would need 102410 rows, so the run aborts after one pasted page, logs
size-exceeded *and* normal, and still saves the file. -/
theorem claim_C2_code_eval :
    (runGeom { vWidth := 640, hWidth := 1000 } { w := 100, h := 8000 }
        [{ w := 100, h := 8000 }]).aborted = true ∧
    (runGeom { vWidth := 640, hWidth := 1000 } { w := 100, h := 8000 }
        [{ w := 100, h := 8000 }]).segs.length = 1 ∧
    (runGeom { vWidth := 640, hWidth := 1000 } { w := 100, h := 8000 }
        [{ w := 100, h := 8000 }]).logs = [LogMsg.sizeExceeded, LogMsg.normal] ∧
    (runGeom { vWidth := 640, hWidth := 1000 } { w := 100, h := 8000 }
        [{ w := 100, h := 8000 }]).savedFile = true ∧
    (runGeom { vWidth := 640, hWidth := 1000 } { w := 100, h := 8000 }
        [{ w := 100, h := 8000 }]).trimmedHeight = 51210 := by
  decide

/-- Claim C3: the claim states that the overflow flag ends up true for every
run whose cumulative write offset exceeded 65535 at any point.  The code
violates this: `pasted_line >= SIZE_MAX` is only tested at the start of the
next iteration, so an overflow first caused by the final page leaves the
flag false (and emits no warning).  Witnessed here: a single 100×11000 page
rescales to 70400 rows, the write offset ends at 70410 > 65535, yet the flag
is false and the run is logged as normal (hence also never resized). -/
theorem claim_C3_code_eval :
    (runGeom { vWidth := 640, hWidth := 1000 } { w := 100, h := 11000 } []).trimmedHeight = 70410 ∧
    SIZE_MAX < 70410 ∧
    (runGeom { vWidth := 640, hWidth := 1000 } { w := 100, h := 11000 } []).overFlg = false ∧
    (runGeom { vWidth := 640, hWidth := 1000 } { w := 100, h := 11000 } []).logs =
      [LogMsg.normal] := by
  decide

/-- Claim C4: the target output width is chosen from the first page only:
portrait width when `h ≥ w` (i.e. `w ≤ h`), landscape width otherwise, and
the choice does not depend on the remaining pages. -/
theorem claim_C4_orientation (cfg : Config) (first : PageDim) (rest rest' : List PageDim) :
    (runGeom cfg first rest).targetWidth =
      (if first.w ≤ first.h then cfg.vWidth else cfg.hWidth) ∧
    (runGeom cfg first rest).targetWidth = (runGeom cfg first rest').targetWidth :=
  ⟨rfl, rfl⟩

/-- Claim C5: every page pasted into the composite has width `targetWidth`
and height `round(originalHeight * targetWidth / originalWidth)` (Python
`round`, modelled on exact rationals), i.e. aspect ratio is preserved up to
rounding. -/
theorem claim_C5_rescale (cfg : Config) (first : PageDim) (rest : List PageDim)
    (hw : ∀ p ∈ first :: rest, 0 < p.w) :
    ∀ seg ∈ (runGeom cfg first rest).segs,
      seg.w = (runGeom cfg first rest).targetWidth ∧
      ∃ p ∈ first :: rest,
        seg.h = (pyRound (((p.h : ℚ) * ((runGeom cfg first rest).targetWidth : ℚ)) /
          (p.w : ℚ))).toNat := by
  intro seg hseg
  have htw : (runGeom cfg first rest).targetWidth = setOutputWidth cfg first := rfl
  have hseg' : seg ∈ (loop (setOutputWidth cfg first) (first :: rest) initState).segs := hseg
  obtain ⟨k, _, hs, _⟩ := loop_main (setOutputWidth cfg first) (first :: rest) initState
  rw [hs] at hseg'
  have hseg'' : seg ∈ buildSegs (setOutputWidth cfg first) START_LINE
      ((first :: rest).take k) := by
    simpa [initState] using hseg'
  obtain ⟨hww, p, hp, hh⟩ := buildSegs_mem _ _ _ _ hseg''
  have hp' : p ∈ first :: rest := List.take_subset _ _ hp
  refine ⟨by rw [htw]; exact hww, p, hp', ?_⟩
  rw [htw, hh, rescaledHeight_eq_pyRound _ _ (hw p hp')]

theorem claim_C5_rescale_witness :
    (∀ p ∈ ({ w := 100, h := 50 } : PageDim) :: ([] : List PageDim), 0 < p.w) ∧
    ({ off := 10, w := 1000, h := 500 } : Seg) ∈
      (runGeom { vWidth := 640, hWidth := 1000 } { w := 100, h := 50 } []).segs ∧
    (({ off := 10, w := 1000, h := 500 } : Seg).w =
      (runGeom { vWidth := 640, hWidth := 1000 } { w := 100, h := 50 } []).targetWidth ∧
      ∃ p ∈ ({ w := 100, h := 50 } : PageDim) :: ([] : List PageDim),
        ({ off := 10, w := 1000, h := 500 } : Seg).h =
          (pyRound (((p.h : ℚ) *
            ((runGeom { vWidth := 640, hWidth := 1000 } { w := 100, h := 50 } []).targetWidth : ℚ)) /
            (p.w : ℚ))).toNat) :=
  ⟨by decide, by decide,
    claim_C5_rescale { vWidth := 640, hWidth := 1000 } { w := 100, h := 50 } []
      (by decide) _ (by decide)⟩

/-- Claim C6: for a non-empty page list whose cumulative rescaled height
plus the 10px top margin stays below the provisional canvas height, the
trimmed composite's height is the sum of the rescaled per-page heights plus
the top margin, its width is the chosen target width, and the run does not
abort. -/
theorem claim_C6_trimmed (cfg : Config) (first : PageDim) (rest : List PageDim)
    (hfit : START_LINE +
      ((first :: rest).map (rescaledHeight (setOutputWidth cfg first))).sum < TEMP_HEIGHT) :
    (runGeom cfg first rest).trimmedHeight =
      START_LINE + ((first :: rest).map (rescaledHeight (setOutputWidth cfg first))).sum ∧
    (runGeom cfg first rest).trimmedWidth = (runGeom cfg first rest).targetWidth ∧
    (runGeom cfg first rest).aborted = false := by
  obtain ⟨h1, h2, _⟩ := loop_fit (setOutputWidth cfg first) (first :: rest) initState
    (by
      show START_LINE +
        ((first :: rest).map (rescaledHeight (setOutputWidth cfg first))).sum ≤ TEMP_HEIGHT
      omega)
  refine ⟨?_, rfl, ?_⟩
  · show (loop (setOutputWidth cfg first) (first :: rest) initState).pastedLine = _
    rw [h1]
    rfl
  · show (loop (setOutputWidth cfg first) (first :: rest) initState).aborted = false
    rw [h2]
    rfl

theorem claim_C6_trimmed_witness :
    (START_LINE + ((({ w := 100, h := 50 } : PageDim) :: [({ w := 100, h := 50 } : PageDim)]).map
      (rescaledHeight (setOutputWidth { vWidth := 640, hWidth := 1000 } { w := 100, h := 50 }))).sum
        < TEMP_HEIGHT) ∧
    ((runGeom { vWidth := 640, hWidth := 1000 } { w := 100, h := 50 }
        [{ w := 100, h := 50 }]).trimmedHeight =
      START_LINE + ((({ w := 100, h := 50 } : PageDim) :: [({ w := 100, h := 50 } : PageDim)]).map
        (rescaledHeight (setOutputWidth { vWidth := 640, hWidth := 1000 } { w := 100, h := 50 }))).sum ∧
      (runGeom { vWidth := 640, hWidth := 1000 } { w := 100, h := 50 }
        [{ w := 100, h := 50 }]).trimmedWidth =
        (runGeom { vWidth := 640, hWidth := 1000 } { w := 100, h := 50 }
          [{ w := 100, h := 50 }]).targetWidth ∧
      (runGeom { vWidth := 640, hWidth := 1000 } { w := 100, h := 50 }
        [{ w := 100, h := 50 }]).aborted = false) :=
  ⟨by decide, claim_C6_trimmed { vWidth := 640, hWidth := 1000 } { w := 100, h := 50 }
    [{ w := 100, h := 50 }] (by decide)⟩

/-- Claim C7: the write offset starts at the 10px top margin; the pasted
segments tile the canvas contiguously from there (each successful paste
advances the offset by exactly the rescaled page height, so the offset is
monotonically non-decreasing and no partial page is ever written: the
trimmed height is the margin plus the sum of whole pasted page heights);
and the offset never exceeds the allocated canvas height of 100000 rows. -/
theorem claim_C7_offset_invariant (cfg : Config) (first : PageDim) (rest : List PageDim) :
    chainB START_LINE (runGeom cfg first rest).segs = true ∧
    (runGeom cfg first rest).trimmedHeight =
      START_LINE + ((runGeom cfg first rest).segs.map Seg.h).sum ∧
    START_LINE ≤ (runGeom cfg first rest).trimmedHeight ∧
    (runGeom cfg first rest).trimmedHeight ≤ TEMP_HEIGHT := by
  obtain ⟨k, _, hsegs, hline⟩ := loop_main (setOutputWidth cfg first) (first :: rest) initState
  have hs : (runGeom cfg first rest).segs =
      buildSegs (setOutputWidth cfg first) START_LINE ((first :: rest).take k) := by
    show (loop (setOutputWidth cfg first) (first :: rest) initState).segs = _
    rw [hsegs]
    rfl
  refine ⟨?_, ?_, ?_, ?_⟩
  · rw [hs]; exact chainB_buildSegs _ _ _
  · show (loop (setOutputWidth cfg first) (first :: rest) initState).pastedLine = _
    rw [hline, hs, buildSegs_map_h]
    rfl
  · show START_LINE ≤ (loop (setOutputWidth cfg first) (first :: rest) initState).pastedLine
    rw [hline]
    exact Nat.le_add_right _ _
  · show (loop (setOutputWidth cfg first) (first :: rest) initState).pastedLine ≤ TEMP_HEIGHT
    exact loop_le_temp _ _ _ (by decide)

/-- Claim C8 counterexample: the claim says pages of a rasterized PDF are
composited in page-number order for page lists of any length, but
`_create_png` names page `i` `_{i+1:02d}.png` and processes
`sorted(self.png_list)`, and for 100 pages the lexicographic order of the
two-digit-padded names differs from page order (`_100.png` sorts before
`_11.png`). -/
theorem claim_C8_counterexample : sortedNames 100 ≠ pdfNames 100 := by
  decide

/-- Claim C8, amended: pages are composited strictly in the order of the
page list handed to the loop — the pasted segments are exactly the in-order
scan of an initial portion of that list (no reordering, no deduplication);
for a rasterized PDF that list is the lexicographically sorted file-name
list, which is a permutation of the page-order names for any page count and
coincides with page order exactly when the document has at most 99 pages. -/
theorem claim_C8_amended :
    (∀ (cfg : Config) (first : PageDim) (rest : List PageDim),
      (runGeom cfg first rest).segs =
        buildSegs (setOutputWidth cfg first) START_LINE
          ((first :: rest).take (runGeom cfg first rest).segs.length)) ∧
    (∀ n, List.Perm (sortedNames n) (pdfNames n)) ∧
    (∀ n, n < 100 → sortedNames n = pdfNames n) := by
  refine ⟨?_, ?_, by decide⟩
  · intro cfg first rest
    obtain ⟨k, hk, hsegs, _⟩ := loop_main (setOutputWidth cfg first) (first :: rest) initState
    have hs : (runGeom cfg first rest).segs =
        buildSegs (setOutputWidth cfg first) START_LINE ((first :: rest).take k) := by
      show (loop (setOutputWidth cfg first) (first :: rest) initState).segs = _
      rw [hsegs]
      rfl
    have hlen : (runGeom cfg first rest).segs.length = k := by
      rw [hs, buildSegs_length, List.length_take]
      simpa using hk
    rw [hlen, hs]
  · intro n
    exact List.perm_insertionSort nameLe (pdfNames n)

theorem claim_C8_amended_witness :
    (5 : ℕ) < 100 ∧ sortedNames 5 = pdfNames 5 :=
  ⟨by decide, claim_C8_amended.2.2 5 (by decide)⟩

/-- Claim C9: composition is deterministic — two runs over an identical page
list and identical configuration (and the same resampling filter, which the
code fixes to `INTER_AREA`) produce a pixel-identical composite and final
image and the same outcome classification (the `logs`, `overFlg` and
`aborted` fields of the result). -/
theorem claim_C9_deterministic (f : Resample) (cfg cfg' : Config)
    (pages pages' : List PageImg) (hc : cfg = cfg') (hp : pages = pages') :
    executePix f cfg pages = executePix f cfg' pages' := by
  subst hc
  subst hp
  rfl

theorem claim_C9_deterministic_witness :
    ({ vWidth := 640, hWidth := 1000 } : Config) = { vWidth := 640, hWidth := 1000 } ∧
    ([samplePage] : List PageImg) = [samplePage] ∧
    executePix constFilter { vWidth := 640, hWidth := 1000 } [samplePage] =
      executePix constFilter { vWidth := 640, hWidth := 1000 } [samplePage] :=
  ⟨rfl, rfl, claim_C9_deterministic constFilter _ _ _ _ rfl rfl⟩

/-- Claim C10: in a run that completes without the final downscale
(`over_flg` false), every pixel of the trimmed composite lying in a row not
covered by a pasted segment — in particular each of the 10 top-margin rows —
is white, because the canvas is initialized all-white and each paste touches
only its own rows; the finalized image then coincides with the trimmed
canvas. -/
theorem claim_C10_frame_white (f : Resample) (cfg : Config) (first : PageImg)
    (rest : List PageImg) (r c : ℕ)
    (hov : (runPix f cfg first rest).overFlg = false)
    (hr : r < START_LINE ∨
      ∀ seg ∈ (runPix f cfg first rest).segs, r < seg.off ∨ seg.off + seg.h ≤ r) :
    (runPix f cfg first rest).canvas r c = white ∧
    (runPix f cfg first rest).finalImage r c = white := by
  have hall : ∀ seg ∈ (pixLoop f (setOutputWidth cfg first.dim) (first :: rest)
      pixInit).geo.segs, r < seg.off ∨ seg.off + seg.h ≤ r := by
    rcases hr with hlt | hall
    · intro seg hsmem
      left
      have hoff : START_LINE ≤ seg.off := by
        rw [pixLoop_geo] at hsmem
        obtain ⟨k, _, hsg, _⟩ :=
          loop_main (setOutputWidth cfg first.dim) ((first :: rest).map PageImg.dim) pixInit.geo
        rw [hsg] at hsmem
        have hsmem' : seg ∈ buildSegs (setOutputWidth cfg first.dim) START_LINE
            ((((first :: rest).map PageImg.dim)).take k) := by
          simpa [pixInit, initState] using hsmem
        exact chainB_off_le _ _ (chainB_buildSegs _ _ _) seg hsmem'
      omega
    · exact hall
  have hcv : (pixLoop f (setOutputWidth cfg first.dim) (first :: rest) pixInit).canvas r c =
      white := by
    rw [pixLoop_frame f _ _ _ r c hall]
    rfl
  have hov' : (pixLoop f (setOutputWidth cfg first.dim) (first :: rest)
      pixInit).geo.overFlg = false := hov
  refine ⟨hcv, ?_⟩
  show (if (pixLoop f (setOutputWidth cfg first.dim) (first :: rest) pixInit).geo.overFlg = true
      then _ else (pixLoop f (setOutputWidth cfg first.dim) (first :: rest) pixInit).canvas) r c =
      white
  rw [hov']
  simpa using hcv

theorem claim_C10_frame_white_witness :
    (runPix constFilter { vWidth := 640, hWidth := 1000 } samplePage []).overFlg = false ∧
    ((3 : ℕ) < START_LINE ∨
      ∀ seg ∈ (runPix constFilter { vWidth := 640, hWidth := 1000 } samplePage []).segs,
        3 < seg.off ∨ seg.off + seg.h ≤ 3) ∧
    ((runPix constFilter { vWidth := 640, hWidth := 1000 } samplePage []).canvas 3 0 = white ∧
      (runPix constFilter { vWidth := 640, hWidth := 1000 } samplePage []).finalImage 3 0 =
        white) :=
  ⟨by decide, Or.inl (by decide),
    claim_C10_frame_white constFilter { vWidth := 640, hWidth := 1000 } samplePage [] 3 0
      (by decide) (Or.inl (by decide))⟩

end ConvertToPng
